import Mathlib

/-!
Shallow embedding of the skeletal-animation core of HL_Tools (Half-Life Asset
Manager), covering the entity-level animation sequencer and controller codec
(`src/tools/hlam/entity/StudioModelEntity.cpp`) and parts of the studio model
renderer (`src/tools/hlam/engine/renderer/studiomodel/StudioModelRenderer.cpp`).

Modelling conventions:
- C++ `float`/`double` values are modelled as `ℚ` (exact arithmetic); the cast
  `(int)x` truncates toward zero and is modelled by `ctrunc`.
- Fixed-size C arrays indexed by small integers are modelled as total
  functions `ℤ → _`.
- A dereference of a null `_editableModel` pointer (undefined behaviour in the
  C++ source) is modelled by an `Option` result whose `none` marks the crash.
- The per-bone chrome cache of the renderer works over `ℝ` because it
  normalizes vectors (square roots) and inverts matrices.
-/

namespace HLAM

/-- Truncation toward zero, the semantics of the C++ cast `(int)x` applied to a
floating point value. -/
def ctrunc (q : ℚ) : ℤ :=
  if 0 ≤ q then ⌊q⌋ else ⌈q⌉

/-- Embeds `std::clamp(v, lo, hi)`. -/
def cclamp (v lo hi : ℤ) : ℤ :=
  if v < lo then lo else if hi < v then hi else v

/-! Studio model flag constants. These come from the vendored Half-Life SDK
`studio.h` header, which is not part of the repository snapshot; the values are
the standard SDK ones and no claim depends on the particular bit patterns. -/

/-- Sequence flag bit: the sequence loops. -/
def STUDIO_LOOPING : ℕ := 1

/-- Bone controller type bit: X rotation channel. -/
def STUDIO_XR : ℕ := 8

/-- Bone controller type bit: Y rotation channel. -/
def STUDIO_YR : ℕ := 16

/-- Bone controller type bit: Z rotation channel. -/
def STUDIO_ZR : ℕ := 32

/-- Controller index reserved for the mouth channel. -/
def STUDIO_MOUTH_CONTROLLER : ℤ := 4

/-- Number of blend channels (`STUDIO_MAX_BLENDERS`). -/
def STUDIO_MAX_BLENDERS : ℤ := 2

/-- Event ids at or above this value are client-side events (`EVENT_CLIENT`
from the SDK). -/
def EVENT_CLIENT : ℤ := 5000

/-- Tests `Type & (STUDIO_XR | STUDIO_YR | STUDIO_ZR)`, i.e. whether a
controller/blend channel is rotational. -/
def isRotationalType (t : ℕ) : Bool :=
  (t &&& (STUDIO_XR ||| STUDIO_YR ||| STUDIO_ZR)) != 0

/-- Animation event entry of a sequence (`frame`, `event id`, `options`),
the payload scanned by `GetAnimationEvent`. -/
structure AnimEventData where
  Frame : ℚ
  EventId : ℤ
  Options : String
deriving DecidableEq, Inhabited

/-- Blend channel descriptor of a sequence (the C++ field `Type` is renamed
`TypeFlags` because `Type` is a Lean keyword). -/
structure BlendDatum where
  TypeFlags : ℕ
  Start : ℚ
  End : ℚ
deriving DecidableEq, Inhabited

/-- Sequence descriptor: the fields of `studiomdl::Sequence` read by the
animation sequencer. -/
structure Sequence where
  NumFrames : ℤ
  FPS : ℚ
  Flags : ℕ
  BlendData : List BlendDatum
  SortedEvents : List AnimEventData
deriving DecidableEq, Inhabited

/-- Tests `Flags & STUDIO_LOOPING`. -/
def sequenceIsLooping (seqd : Sequence) : Bool :=
  (seqd.Flags &&& STUDIO_LOOPING) != 0

/-- Bone controller descriptor (the C++ field `Type` is renamed `TypeFlags`
because `Type` is a Lean keyword). -/
structure BoneController where
  Index : ℤ
  TypeFlags : ℕ
  Start : ℚ
  End : ℚ
deriving DecidableEq, Inhabited

/-- Fields of `studiomdl::EditableStudioModel` read by the entity code. -/
structure EditableStudioModel where
  Sequences : List Sequence
  BoneControllers : List BoneController
deriving DecidableEq, Inhabited

/-- Selects which blend-calculation strategy the entity uses (the `_blender`
member, `StandardBlender` or `CounterStrikeBlender`). -/
inductive BlenderKind where
  | standard
  | counterStrike
deriving DecidableEq, Inhabited

/-- Looping policy of the entity (`StudioLoopingMode`). -/
inductive StudioLoopingMode where
  | AlwaysLoop
  | NeverLoop
  | UseSequenceSetting
deriving DecidableEq, Inhabited

/-- Modelled from the spec: the Pose State fields of `StudioModelEntity`
(section 3 of the design document); the class declaration header is not in the
repository snapshot, but every field below is read or written by the member
function definitions in `StudioModelEntity.cpp`. -/
structure StudioModelEntity where
  editableModel : Option EditableStudioModel
  sequence : ℤ
  frame : ℚ
  animTime : ℚ
  frameRate : ℚ
  loopingMode : StudioLoopingMode
  lastEventCheck : ℚ
  controller : ℤ → ℤ
  controllerValues : ℤ → ℚ
  mouth : ℤ
  mouthValue : ℚ
  blending : ℤ → ℤ
  blendingValues : ℤ → ℚ
  blender : BlenderKind

namespace StudioModelEntity

/-- Resolves the `switch (_loopingMode)` at the top of `AdvanceFrame` (the
`default` case of the switch coincides with `AlwaysLoop`). -/
def shouldLoop (mode : StudioLoopingMode) (seqd : Sequence) : Bool :=
  match mode with
  | .AlwaysLoop => true
  | .NeverLoop => false
  | .UseSequenceSetting => sequenceIsLooping seqd

/-- Embeds the `deltaTime` fixups of `AdvanceFrame` after its early returns:
the zero-delta clock path, the first-update reset (`if (!_animTime)`), and the
`maximum` clamp. -/
def effectiveDelta (e : StudioModelEntity) (now deltaTime maximum : ℚ) : ℚ :=
  let dt0 := if deltaTime = 0 then now - e.animTime else deltaTime
  let dt1 := if e.animTime = 0 then 0 else dt0
  if maximum ≠ -1 then min dt1 maximum else dt1

/-- Embeds `StudioModelEntity::AdvanceFrame`. Returns the delta time the C++
function returns, paired with the updated entity. The C++ double literal
`0.001` is modelled as `1/1000`. -/
def AdvanceFrame (e : StudioModelEntity) (now deltaTime maximum : ℚ) :
    ℚ × StudioModelEntity :=
  match e.editableModel with
  | none => (0, e)
  | some model =>
    if e.sequence < 0 ∨ (model.Sequences.length : ℤ) ≤ e.sequence then (0, e)
    else if deltaTime = 0 ∧ now - e.animTime ≤ 1 / 1000 then (0, e)
    else
      let sequenceDescriptor := model.Sequences.getD e.sequence.toNat default
      let dt := effectiveDelta e now deltaTime maximum
      let oldFrame := e.frame
      let sl := shouldLoop e.loopingMode sequenceDescriptor
      let increment := dt * sequenceDescriptor.FPS * e.frameRate
      let f1 :=
        if e.frame < (sequenceDescriptor.NumFrames : ℚ) - 1 ∨ sl = true then
          e.frame + increment
        else e.frame
      let f2 :=
        if sequenceDescriptor.NumFrames ≤ 1 then 0
        else if sl = true then
          f1 - (ctrunc (f1 / ((sequenceDescriptor.NumFrames : ℚ) - 1)) : ℚ) *
            ((sequenceDescriptor.NumFrames : ℚ) - 1)
        else if (sequenceDescriptor.NumFrames : ℚ) - 1 ≤ f1 then
          (sequenceDescriptor.NumFrames : ℚ) - 1
        else f1
      let lec :=
        if sequenceDescriptor.NumFrames ≤ 1 then e.lastEventCheck
        else if f2 < oldFrame then f2 - increment else e.lastEventCheck
      (dt, { e with frame := f2, lastEventCheck := lec, animTime := now })

/-- Embeds `StudioModelEntity::SetFrame` (`now` stands for the world clock read
to update `_animTime`). -/
def SetFrame (e : StudioModelEntity) (now frame : ℚ) : StudioModelEntity :=
  if frame = -1 then e
  else
    match e.editableModel with
    | none => e
    | some model =>
      if e.sequence < 0 ∨ (model.Sequences.length : ℤ) ≤ e.sequence then e
      else
        let sequenceDescriptor := model.Sequences.getD e.sequence.toNat default
        let f :=
          if sequenceDescriptor.NumFrames ≤ 1 then 0
          else
            frame - (ctrunc (frame / ((sequenceDescriptor.NumFrames : ℚ) - 1)) : ℚ) *
              ((sequenceDescriptor.NumFrames : ℚ) - 1)
        { e with frame := f, animTime := now }

/-- Embeds `StudioModelEntity::SetSequence`. The C++ body dereferences
`_editableModel` without a null check; that dereference is modelled by `none`
(the crash). -/
def SetSequence (e : StudioModelEntity) (sequence : ℤ) :
    Option StudioModelEntity :=
  match e.editableModel with
  | none => none
  | some model =>
    if model.Sequences.isEmpty then
      some { e with sequence := -1, frame := 0, lastEventCheck := 0 }
    else if sequence ≠ -1 ∧ (sequence < -1 ∨ (model.Sequences.length : ℤ) ≤ sequence) then
      some e
    else
      some { e with sequence := sequence, frame := 0, lastEventCheck := 0 }

/-- Embeds `StudioModelEntity::GetNumFrames`. The guard
`_sequence < 0 || _sequence >= _editableModel->Sequences.size()` short-circuits:
when `_sequence < 0` the function returns 0 without touching the model; only
the second disjunct dereferences `_editableModel`, with no null check — that
dereference is modelled by `none` (the crash). -/
def GetNumFrames (e : StudioModelEntity) : Option ℤ :=
  if e.sequence < 0 then some 0
  else
    match e.editableModel with
    | none => none
    | some model =>
      if (model.Sequences.length : ℤ) ≤ e.sequence then some 0
      else some (model.Sequences.getD e.sequence.toNat default).NumFrames

/-- Window test applied to one candidate event inside the scan loop of
`GetAnimationEvent`: the client-event filter, the direct window test, and the
looping wrap-window test. -/
def animEventMatches (allowClientEvents : Bool) (seqd : Sequence)
    (startF endF : ℚ) (candidate : AnimEventData) : Bool :=
  (allowClientEvents || decide (candidate.EventId < EVENT_CLIENT)) &&
    (decide (startF ≤ candidate.Frame ∧ candidate.Frame < endF) ||
      (sequenceIsLooping seqd &&
        decide ((seqd.NumFrames : ℚ) - 1 ≤ endF) &&
        decide (candidate.Frame < endF - (seqd.NumFrames : ℚ) + 1)))

/-- Scan loop of `GetAnimationEvent`: walks the event list from position
`index`, returning `index + 1` (the value the C++ function returns so the next
scan resumes after the match) together with the matching event. -/
def findEventFrom (allowClientEvents : Bool) (seqd : Sequence)
    (startF endF : ℚ) :
    List AnimEventData → ℕ → Option (ℕ × AnimEventData)
  | [], _ => none
  | candidate :: rest, index =>
    if animEventMatches allowClientEvents seqd startF endF candidate then
      some (index + 1, candidate)
    else
      findEventFrom allowClientEvents seqd startF endF rest (index + 1)

/-- Embeds `StudioModelEntity::GetAnimationEvent`. Returns `none` where the
C++ function returns `0`, otherwise the returned index and the event written
through the out parameter. -/
def GetAnimationEvent (e : StudioModelEntity) (startF endF : ℚ) (index : ℕ)
    (allowClientEvents : Bool) : Option (ℕ × AnimEventData) :=
  match e.editableModel with
  | none => none
  | some model =>
    if e.sequence < 0 ∨ (model.Sequences.length : ℤ) ≤ e.sequence then none
    else
      let sequenceDescriptor := model.Sequences.getD e.sequence.toNat default
      if sequenceDescriptor.SortedEvents.length ≤ index then none
      else
        let start1 := if sequenceDescriptor.NumFrames ≤ 1 then 0 else startF
        let end1 := if sequenceDescriptor.NumFrames ≤ 1 then 1 else endF
        findEventFrom allowClientEvents sequenceDescriptor start1 end1
          (sequenceDescriptor.SortedEvents.drop index) index

/-- While loop of `DispatchAnimEvents`: repeatedly calls `GetAnimationEvent`
with the index it returned, collecting the dispatched events. The loop always
makes progress through the event list, so fuel one larger than the list length
is enough. -/
def dispatchEventsLoop (e : StudioModelEntity) (startF endF : ℚ)
    (allowClientEvents : Bool) : ℕ → ℕ → List AnimEventData
  | 0, _ => []
  | fuel + 1, index =>
    match GetAnimationEvent e startF endF index allowClientEvents with
    | none => []
    | some (next, event) =>
      event :: dispatchEventsLoop e startF endF allowClientEvents fuel next

/-- Embeds `StudioModelEntity::DispatchAnimEvents`: plays events from the
previous checked frame to the current frame, and records the current frame as
checked. Returns the list of events passed to `HandleAnimEvent` together with
the updated entity. -/
def DispatchAnimEvents (e : StudioModelEntity) (allowClientEvents : Bool) :
    List AnimEventData × StudioModelEntity :=
  match e.editableModel with
  | none => ([], e)
  | some model =>
    let startF := e.lastEventCheck
    let endF := e.frame
    let fuel := (model.Sequences.getD e.sequence.toNat default).SortedEvents.length + 1
    (dispatchEventsLoop e startF endF allowClientEvents fuel 0,
      { e with lastEventCheck := e.frame })

/-- Value-shaping steps of `SetController`: negation for backwards ranges,
re-centering for non-wrapping rotational ranges, and wrap normalization for
wrapping rotational ranges. -/
def controllerAdjustValue (boneController : BoneController) (value : ℚ) : ℚ :=
  if isRotationalType boneController.TypeFlags then
    let v1 := if boneController.End < boneController.Start then -value else value
    if boneController.Start + 359 ≥ boneController.End then
      let mid := (boneController.Start + boneController.End) / 2
      let v2 := if v1 > mid + 180 then v1 - 360 else v1
      if v2 < mid - 180 then v2 + 360 else v2
    else
      if v1 > 360 then v1 - (ctrunc (v1 / 360) : ℚ) * 360
      else if v1 < 0 then v1 + (ctrunc (v1 / (-360) + 1) : ℚ) * 360
      else v1
  else value

/-- Value-shaping steps of `SetMouth` (a verbatim duplicate of the
`SetController` block in the C++ source). -/
def mouthAdjustValue (boneController : BoneController) (value : ℚ) : ℚ :=
  if isRotationalType boneController.TypeFlags then
    let v1 := if boneController.End < boneController.Start then -value else value
    if boneController.Start + 359 ≥ boneController.End then
      let mid := (boneController.Start + boneController.End) / 2
      let v2 := if v1 > mid + 180 then v1 - 360 else v1
      if v2 < mid - 180 then v2 + 360 else v2
    else
      if v1 > 360 then v1 - (ctrunc (v1 / 360) : ℚ) * 360
      else if v1 < 0 then v1 + (ctrunc (v1 / (-360) + 1) : ℚ) * 360
      else v1
  else value

/-- Value-shaping steps of `StandardBlender::CalculateBlend`. Note that the
C++ block has no `else` branch: a wrapping rotational range is passed through
without the `[0,360]` normalization performed by `SetController`. -/
def blendAdjustValue (bd : BlendDatum) (value : ℚ) : ℚ :=
  if isRotationalType bd.TypeFlags then
    let v1 := if bd.End < bd.Start then -value else value
    if bd.Start + 359 ≥ bd.End then
      let mid := (bd.Start + bd.End) / 2
      let v2 := if v1 > mid + 180 then v1 - 360 else v1
      if v2 < mid - 180 then v2 + 360 else v2
    else v1
  else value

/-- Encoded byte computed by `SetController`:
`std::clamp((int)(255 * (value - Start) / (End - Start)), 0, 255)` applied to
the shaped value. -/
def controllerSetting (boneController : BoneController) (value : ℚ) : ℤ :=
  cclamp
    (ctrunc (255 * (controllerAdjustValue boneController value - boneController.Start) /
      (boneController.End - boneController.Start))) 0 255

/-- Encoded value computed by `SetMouth`: the same linear map with scale `64`
and clamp range `[0, 64]`. -/
def mouthSetting (boneController : BoneController) (value : ℚ) : ℤ :=
  cclamp
    (ctrunc (64 * (mouthAdjustValue boneController value - boneController.Start) /
      (boneController.End - boneController.Start))) 0 64

/-- Encoded byte computed by `StandardBlender::CalculateBlend` for a channel
whose `Type` is nonzero. -/
def blendSetting (bd : BlendDatum) (value : ℚ) : ℤ :=
  cclamp
    (ctrunc (255 * (blendAdjustValue bd value - bd.Start) / (bd.End - bd.Start)))
    0 255

/-- Embeds `StudioModelEntity::SetController`: finds the first bone controller
with the requested index, records the raw value, and stores the encoded
setting. -/
def SetController (e : StudioModelEntity) (controller : ℤ) (value : ℚ) :
    StudioModelEntity :=
  match e.editableModel with
  | none => e
  | some model =>
    match model.BoneControllers.find? (fun bc => bc.Index == controller) with
    | none => e
    | some boneController =>
      { e with
        controllerValues := fun i =>
          if i = controller then value else e.controllerValues i,
        controller := fun i =>
          if i = controller then controllerSetting boneController value
          else e.controller i }

/-- Embeds `StudioModelEntity::SetMouth`: finds the first bone controller with
the mouth index, records the raw value, and stores the encoded setting. -/
def SetMouth (e : StudioModelEntity) (value : ℚ) : StudioModelEntity :=
  match e.editableModel with
  | none => e
  | some model =>
    match model.BoneControllers.find? (fun bc => bc.Index == STUDIO_MOUTH_CONTROLLER) with
    | none => e
    | some boneController =>
      { e with
        mouthValue := value,
        mouth := mouthSetting boneController value }

/-- Embeds `StudioModelEntity::StandardBlender::CalculateBlend`: a channel with
`Type == 0` yields no value. -/
def calculateBlendStandard (sequenceDescriptor : Sequence) (blender : ℕ)
    (value : ℚ) : Option ℤ :=
  let bd := sequenceDescriptor.BlendData.getD blender default
  if bd.TypeFlags = 0 then none
  else some (blendSetting bd value)

/-- Embeds `StudioModelEntity::CounterStrikeBlender::CalculateBlend`. The
`static_cast<std::uint8_t>` of the C++ source is modelled as truncation
followed by reduction modulo 256. -/
def calculateBlendCounterStrike (blender : ℕ) (value : ℚ) : Option ℤ :=
  if blender = 0 then some ((ctrunc ((180 + value) / 360 * 255)).emod 256)
  else if blender = 1 then some ((ctrunc ((45 + value) / 90 * 255)).emod 256)
  else none

/-- Dispatches `_blender->CalculateBlend(...)` to the entity's strategy. -/
def calculateBlend (kind : BlenderKind) (sequenceDescriptor : Sequence)
    (blender : ℕ) (value : ℚ) : Option ℤ :=
  match kind with
  | .standard => calculateBlendStandard sequenceDescriptor blender value
  | .counterStrike => calculateBlendCounterStrike blender value

/-- Embeds `StudioModelEntity::SetBlending`: stores the encoded byte and the
raw value only when the strategy produced a value. -/
def SetBlending (e : StudioModelEntity) (blender : ℤ) (value : ℚ) :
    StudioModelEntity :=
  match e.editableModel with
  | none => e
  | some model =>
    if blender < 0 ∨ STUDIO_MAX_BLENDERS ≤ blender then e
    else if e.sequence < 0 ∨ (model.Sequences.length : ℤ) ≤ e.sequence then e
    else
      let sequenceDescriptor := model.Sequences.getD e.sequence.toNat default
      match calculateBlend e.blender sequenceDescriptor blender.toNat value with
      | none => e
      | some setting =>
        { e with
          blending := fun i => if i = blender then setting else e.blending i,
          blendingValues := fun i =>
            if i = blender then value else e.blendingValues i }

end StudioModelEntity

/-- Rational 3-vector used by the shadow projector (the C++ computations there
are pure arithmetic on `glm::vec3`, no roots). -/
structure Vec3q where
  x : ℚ
  y : ℚ
  z : ℚ
deriving DecidableEq, Inhabited

/-- Fields of a submodel mesh read by `InternalDrawShadows`: the triangle count
and the flat triangle command stream (`count`, then `count` groups of 4 ints
whose first entry is the vertex index; a zero count terminates). -/
structure ShadowMesh where
  NumTriangles : ℕ
  Triangles : List ℤ
deriving DecidableEq, Inhabited

namespace StudioModelRenderer

/-- Inner vertex loop of `InternalDrawShadows`
(`for (; i > 0; --i, triCmds += 4)`): emits one projected point per group of 4
command ints, returning the emitted points and the remaining command stream. -/
def shadowEmitGroup (xformverts : ℕ → Vec3q) (lightvec : Vec3q)
    (lightSampleHeight : ℚ) : ℕ → List ℤ → List Vec3q × List ℤ
  | 0, l => ([], l)
  | _ + 1, [] => ([], [])
  | n + 1, idx :: rest =>
    let vertex := xformverts idx.toNat
    let lightDistance := vertex.z - lightSampleHeight
    let point : Vec3q :=
      { x := vertex.x - lightvec.x * lightDistance
        y := vertex.y - lightvec.y * lightDistance
        z := lightSampleHeight + 1 }
    let pr := shadowEmitGroup xformverts lightvec lightSampleHeight n (rest.drop 3)
    (point :: pr.1, pr.2)

/-- Outer command loop of `InternalDrawShadows`
(`for (int i; (i = *triCmds++) != 0;)`): reads a fan/strip count and emits that
group, until a zero count. Each iteration consumes at least the count int, so
fuel equal to the stream length is enough. -/
def shadowEmitAux (xformverts : ℕ → Vec3q) (lightvec : Vec3q)
    (lightSampleHeight : ℚ) : ℕ → List ℤ → List Vec3q
  | 0, _ => []
  | _ + 1, [] => []
  | fuel + 1, c :: rest =>
    if c = 0 then []
    else
      let pr := shadowEmitGroup xformverts lightvec lightSampleHeight c.natAbs rest
      pr.1 ++ shadowEmitAux xformverts lightvec lightSampleHeight fuel pr.2

/-- Shadow vertex stream of one mesh. -/
def shadowEmit (xformverts : ℕ → Vec3q) (lightvec : Vec3q)
    (lightSampleHeight : ℚ) (cmds : List ℤ) : List Vec3q :=
  shadowEmitAux xformverts lightvec lightSampleHeight cmds.length cmds

/-- Vertex indices referenced by a triangle command stream, in emission order
(the first int of each group of 4, per fan/strip block). -/
def cmdGroupIndices : ℕ → List ℤ → List ℤ × List ℤ
  | 0, l => ([], l)
  | _ + 1, [] => ([], [])
  | n + 1, idx :: rest =>
    let pr := cmdGroupIndices n (rest.drop 3)
    (idx :: pr.1, pr.2)

/-- Outer-loop companion of `cmdGroupIndices`. -/
def cmdVertexIndicesAux : ℕ → List ℤ → List ℤ
  | 0, _ => []
  | _ + 1, [] => []
  | fuel + 1, c :: rest =>
    if c = 0 then []
    else
      let pr := cmdGroupIndices c.natAbs rest
      pr.1 ++ cmdVertexIndicesAux fuel pr.2

/-- Vertex indices referenced by a triangle command stream. -/
def cmdVertexIndices (cmds : List ℤ) : List ℤ :=
  cmdVertexIndicesAux cmds.length cmds

/-- Vertex indices referenced by the command streams of a list of meshes. -/
def meshesCmdVertexIndices (meshes : List ShadowMesh) : List ℤ :=
  (meshes.map (fun mesh => cmdVertexIndices mesh.Triangles)).flatten

/-- Embeds `StudioModelRenderer::InternalDrawShadows`: the light sample height
is the entity origin's Z, the shadow plane sits one unit above it, and the
polygon counter accumulates each mesh's triangle count. Returns the emitted
shadow vertices and the drawn polygon count. -/
def InternalDrawShadows (meshes : List ShadowMesh) (xformverts : ℕ → Vec3q)
    (lightvec : Vec3q) (origin : Vec3q) : List Vec3q × ℕ :=
  let lightSampleHeight := origin.z
  meshes.foldr
    (fun mesh acc =>
      (shadowEmit xformverts lightvec lightSampleHeight mesh.Triangles ++ acc.1,
        mesh.NumTriangles + acc.2))
    ([], 0)

/-- Embeds `StudioModelRenderer::DrawShadows`: when the model carries the
`EF_NOSHADELIGHT` flag nothing is drawn and zero polygons are reported;
otherwise the work is done by `InternalDrawShadows` (the surrounding GL state
changes are external effects). -/
def DrawShadows (noShadeLight : Bool) (meshes : List ShadowMesh)
    (xformverts : ℕ → Vec3q) (lightvec : Vec3q) (origin : Vec3q) :
    List Vec3q × ℕ :=
  if ¬noShadeLight then InternalDrawShadows meshes xformverts lightvec origin
  else ([], 0)

/-- Planar shadow projection formula as the spec states it: the vertex is
projected onto the horizontal plane one unit above the entity origin's Z, its
X and Y offset by the light direction's X/Y components times
`(vertex.z - originZ)`. -/
def shadowProject (lightvec : Vec3q) (originZ : ℚ) (v : Vec3q) : Vec3q :=
  { x := v.x - lightvec.x * (v.z - originZ)
    y := v.y - lightvec.y * (v.z - originZ)
    z := originZ + 1 }

/-- Counters of the renderer touched by `DrawModel`. -/
structure RenderCounters where
  modelsDrawnCount : ℕ
  drawnPolygonsCount : ℕ
deriving DecidableEq, Inhabited

/-- Embeds the model-pointer guard of `StudioModelRenderer::DrawModel`: a null
model logs an error and returns 0 drawn polygons without touching the
counters; otherwise the draw-generation counter is bumped and the drawing body
(bone setup, lighting, and the per-bodypart draw loops, abstracted here as
`drawPipeline`) reports the drawn polygons. -/
def DrawModel (counters : RenderCounters)
    (renderInfoModel : Option EditableStudioModel)
    (drawPipeline : EditableStudioModel → ℕ) : ℕ × RenderCounters :=
  match renderInfoModel with
  | none => (0, counters)
  | some model =>
    let uiDrawnPolys := drawPipeline model
    (uiDrawnPolys,
      { modelsDrawnCount := counters.modelsDrawnCount + 1
        drawnPolygonsCount := counters.drawnPolygonsCount + uiDrawnPolys })

/-- Real 3-vector used by the chrome evaluator (normalization takes square
roots, so this part of the embedding works over `ℝ`). -/
structure Vec3r where
  x : ℝ
  y : ℝ
  z : ℝ

/-- Dot product (`glm::dot`). -/
def vdot (a b : Vec3r) : ℝ := a.x * b.x + a.y * b.y + a.z * b.z

/-- Cross product (`glm::cross`). -/
def vcross (a b : Vec3r) : Vec3r :=
  { x := a.y * b.z - a.z * b.y
    y := a.z * b.x - a.x * b.z
    z := a.x * b.y - a.y * b.x }

/-- Negation (`v * -1.0f` and the unary minus on `glm::vec3`). -/
def vneg (a : Vec3r) : Vec3r := { x := -a.x, y := -a.y, z := -a.z }

/-- Addition (`+=` on `glm::vec3`). -/
def vadd (a b : Vec3r) : Vec3r := { x := a.x + b.x, y := a.y + b.y, z := a.z + b.z }

/-- Normalization (`glm::normalize`). -/
noncomputable def vnormalize (v : Vec3r) : Vec3r :=
  { x := v.x / Real.sqrt (vdot v v)
    y := v.y / Real.sqrt (vdot v v)
    z := v.z / Real.sqrt (vdot v v) }

/-- Column-major 4x4 matrix, indexed as `m row col`; glm's `m[c]` is the
column `fun r => m r c`. -/
abbrev Mat4 := Matrix (Fin 4) (Fin 4) ℝ

/-- Translation column of a bone transform (`glm::vec3{m[3]}`). -/
def matCol3 (m : Mat4) : Vec3r := { x := m 0 3, y := m 1 3, z := m 2 3 }

/-- Embeds `matrix[3] = glm::vec4{0, 0, 0, 1}`. -/
def zeroTranslation (m : Mat4) : Mat4 :=
  Matrix.of fun r c => if c = 3 then (if r = 3 then 1 else 0) else m r c

/-- Matrix times `glm::vec4{v, w}`, truncated back to a 3-vector (glm drops
the fourth component when assigning a `vec4` to a `vec3`). -/
noncomputable def mat4ApplyVec (m : Mat4) (v : Vec3r) (w : ℝ) : Vec3r :=
  let res := m.mulVec fun i =>
    if i = 0 then v.x else if i = 1 then v.y else if i = 2 then v.z else w
  { x := res 0, y := res 1, z := res 2 }

/-- Renderer fields read and written by `StudioModelRenderer::Chrome`. The
per-bone arrays are modelled as total functions on bone indices. -/
structure ChromeState where
  viewerOrigin : Vec3r
  viewerRight : Vec3r
  bonetransform : ℕ → Mat4
  chromeage : ℕ → ℕ
  chromeup : ℕ → Vec3r
  chromeright : ℕ → Vec3r
  modelsDrawnCount : ℕ

/-- Basis recomputation block of `StudioModelRenderer::Chrome`: derives the
view-relative up/right vectors and transforms them into bone space through the
inverse of the translation-zeroed bone transform. -/
noncomputable def chromeBasis (s : ChromeState) (bone : ℕ) : Vec3r × Vec3r :=
  let tmp := vnormalize (vadd (vneg s.viewerOrigin) (matCol3 (s.bonetransform bone)))
  let chromeupvec := vnormalize (vcross tmp s.viewerRight)
  let chromerightvec := vnormalize (vcross tmp chromeupvec)
  let matrix := (zeroTranslation (s.bonetransform bone))⁻¹
  (mat4ApplyVec matrix (vneg chromeupvec) 1, mat4ApplyVec matrix chromerightvec 1)

/-- Embeds `StudioModelRenderer::Chrome`: recomputes and caches the per-bone
basis only when the bone's cache stamp differs from the draw-generation
counter, then computes both chrome coordinates from the cached basis. Returns
the coordinate pair and the updated renderer state. -/
noncomputable def Chrome (s : ChromeState) (bone : ℕ) (normal : Vec3r) :
    (ℝ × ℝ) × ChromeState :=
  let s1 :=
    if s.chromeage bone ≠ s.modelsDrawnCount then
      let basis := chromeBasis s bone
      { s with
        chromeup := fun b => if b = bone then basis.1 else s.chromeup b
        chromeright := fun b => if b = bone then basis.2 else s.chromeright b
        chromeage := fun b => if b = bone then s.modelsDrawnCount else s.chromeage b }
    else s
  (((vdot normal (s1.chromeright bone) + 1) * (1 / 2),
    (vdot normal (s1.chromeup bone) + 1) * (1 / 2)), s1)

end StudioModelRenderer

/-- Dispatches animation events over one externally chosen frame window
`(start, end)`: the entity's event-scan marker and current frame are set to
the window bounds and `DispatchAnimEvents` is run. -/
def dispatchWindow (e : StudioModelEntity) (allowClientEvents : Bool)
    (window : ℚ × ℚ) : List AnimEventData :=
  (StudioModelEntity.DispatchAnimEvents
    { e with lastEventCheck := window.1, frame := window.2 } allowClientEvents).1

/-- Dispatches animation events over the series of frame windows cut at the
given points (cut points `[c0, c1, ..., ck]` give windows
`[c0,c1), [c1,c2), ..., [c(k-1),ck)`), concatenating the dispatched events. -/
def dispatchOverWindows (e : StudioModelEntity) (allowClientEvents : Bool)
    (cuts : List ℚ) : List AnimEventData :=
  ((cuts.zip cuts.tail).map (dispatchWindow e allowClientEvents)).flatten

/-- Membership of an event's frame in the half-open window `[a, b)`. -/
def inWindow (a b : ℚ) (ev : AnimEventData) : Bool :=
  decide (a ≤ ev.Frame ∧ ev.Frame < b)

/-! Concrete fixtures used by counterexamples and witnesses. -/

/-- Builds an entity state with the given pose fields and zeroed
controller/blend storage. -/
def mkEntity (model : Option EditableStudioModel) (sequence : ℤ)
    (frame animTime frameRate : ℚ) (mode : StudioLoopingMode) :
    StudioModelEntity :=
  { editableModel := model
    sequence := sequence
    frame := frame
    animTime := animTime
    frameRate := frameRate
    loopingMode := mode
    lastEventCheck := 0
    controller := fun _ => 0
    controllerValues := fun _ => 0
    mouth := 0
    mouthValue := 0
    blending := fun _ => 0
    blendingValues := fun _ => 0
    blender := .standard }

/-- Looping 10-frame sequence at 30 FPS with no events. -/
def seq10 : Sequence :=
  { NumFrames := 10, FPS := 30, Flags := STUDIO_LOOPING, BlendData := [], SortedEvents := [] }

/-- Model holding only `seq10`. -/
def model10 : EditableStudioModel := { Sequences := [seq10], BoneControllers := [] }

/-- Entity playing `seq10` from frame 0 with a prior animation time. -/
def entity10 : StudioModelEntity :=
  mkEntity (some model10) 0 0 1 1 .AlwaysLoop

/-- Looping 30-frame sequence at 30 FPS with no events. -/
def seq30 : Sequence :=
  { NumFrames := 30, FPS := 30, Flags := STUDIO_LOOPING, BlendData := [], SortedEvents := [] }

/-- Model holding only `seq30`. -/
def model30 : EditableStudioModel := { Sequences := [seq30], BoneControllers := [] }

/-- Entity playing `seq30` from frame 0 at playback rate 1 with a prior
animation time recorded. -/
def entity30 : StudioModelEntity :=
  mkEntity (some model30) 0 0 5 1 .UseSequenceSetting

/-- Rotational controller channel with the wrapping range `[0, 720]`
(`Start + 359 < End`). -/
def bcWrap : BoneController :=
  { Index := 0, TypeFlags := STUDIO_XR, Start := 0, End := 720 }

/-- Blend channel with the same wrapping rotational range as `bcWrap`. -/
def bdWrap : BlendDatum :=
  { TypeFlags := STUDIO_XR, Start := 0, End := 720 }

/-- Rotational controller channel with the non-wrapping range `[0, 90]`. -/
def bcRecenter : BoneController :=
  { Index := 0, TypeFlags := STUDIO_XR, Start := 0, End := 90 }

/-- Blend channel with the same non-wrapping rotational range as
`bcRecenter`. -/
def bdRecenter : BlendDatum :=
  { TypeFlags := STUDIO_XR, Start := 0, End := 90 }

/-- Event at frame 0 of the 20-frame looping sequence `seq20`. -/
def evZero : AnimEventData := { Frame := 0, EventId := 1, Options := "" }

/-- Looping 20-frame sequence with one event at frame 0, the configuration of
the spec's event-dispatch example. -/
def seq20 : Sequence :=
  { NumFrames := 20, FPS := 15, Flags := STUDIO_LOOPING, BlendData := [],
    SortedEvents := [evZero] }

/-- Model holding only `seq20`. -/
def model20 : EditableStudioModel := { Sequences := [seq20], BoneControllers := [] }

/-- Entity playing `seq20`. -/
def entity20 : StudioModelEntity :=
  mkEntity (some model20) 0 0 1 1 .UseSequenceSetting

/-- Two-frame sequence whose two blend channels both have `Type == 0`. -/
def seqBlend : Sequence :=
  { NumFrames := 2, FPS := 30, Flags := 0,
    BlendData := [{ TypeFlags := 0, Start := 0, End := 0 },
                  { TypeFlags := 0, Start := 0, End := 0 }],
    SortedEvents := [] }

/-- Model holding only `seqBlend`. -/
def modelBlend : EditableStudioModel := { Sequences := [seqBlend], BoneControllers := [] }

/-- Entity playing `seqBlend` with the standard blender strategy. -/
def entityBlend : StudioModelEntity :=
  mkEntity (some modelBlend) 0 0 1 1 .AlwaysLoop

/-! Arithmetic helper lemmas about the truncating wrap formulas. -/

/-- Truncation toward zero agrees with the floor on non-negative values. -/
theorem ctrunc_of_nonneg {q : ℚ} (h : 0 ≤ q) : ctrunc q = ⌊q⌋ := by
  simp [ctrunc, h]

/-- The truncating wrap `x - (int)(x / d) * d` lands in `[0, d)` whenever
`0 ≤ x` and `0 < d`. -/
theorem sub_ctrunc_div_mul_bounds (x d : ℚ) (hx : 0 ≤ x) (hd : 0 < d) :
    0 ≤ x - (ctrunc (x / d) : ℚ) * d ∧ x - (ctrunc (x / d) : ℚ) * d < d := by
  rw [ctrunc_of_nonneg (div_nonneg hx hd.le)]
  exact ⟨Int.sub_floor_div_mul_nonneg x hd, Int.sub_floor_div_mul_lt x hd⟩

/-- The negative-branch wrap `x + (int)(x / -360 + 1) * 360` lands in
`(0, 360]` whenever `x < 0`. -/
theorem neg_wrap_bounds (x : ℚ) (hx : x < 0) :
    0 < x + (ctrunc (x / (-360) + 1) : ℚ) * 360 ∧
      x + (ctrunc (x / (-360) + 1) : ℚ) * 360 ≤ 360 := by
  have hrw : x / (-360) = (-x) / 360 := by ring
  have hpos : 0 ≤ (-x) / 360 := div_nonneg (by linarith) (by norm_num)
  rw [hrw, ctrunc_of_nonneg (by linarith), Int.floor_add_one]
  have hb := sub_ctrunc_div_mul_bounds (-x) 360 (by linarith) (by norm_num)
  rw [ctrunc_of_nonneg hpos] at hb
  push_cast
  constructor <;> nlinarith [hb.1, hb.2]

open StudioModelEntity StudioModelRenderer

/-- The effective delta time of `AdvanceFrame` is non-negative whenever the
passed delta is non-negative, the maximum is `-1` (none) or non-negative, and
the early-return guard for a stale clock did not fire. -/
theorem effectiveDelta_nonneg (e : StudioModelEntity)
    (now deltaTime maximum : ℚ) (hdt : 0 ≤ deltaTime)
    (hmax : maximum = -1 ∨ 0 ≤ maximum)
    (hmain : ¬(deltaTime = 0 ∧ now - e.animTime ≤ 1 / 1000)) :
    0 ≤ effectiveDelta e now deltaTime maximum := by
  have hclock : deltaTime = 0 → (1 : ℚ) / 1000 < now - e.animTime := by
    intro h
    by_contra hc
    exact hmain ⟨h, not_lt.mp hc⟩
  have hmx : maximum ≠ -1 → 0 ≤ maximum := by
    intro hne
    rcases hmax with h | h
    · exact absurd h hne
    · exact h
  simp only [effectiveDelta]
  split_ifs with h1 h2 h3 h4 h5
  · exact le_min le_rfl (hmx h1)
  · exact le_min (by linarith [hclock h3]) (hmx h1)
  · exact le_min hdt (hmx h1)
  · exact le_rfl
  · linarith [hclock h5]
  · exact hdt

/-- C1 counterexample: on the looping 10-frame sequence, `SetFrame(-5)` runs
the truncating wrap (`(int)(-5 / 9) = 0`) and leaves the frame at `-5`, which
is not in `[0, 9)`. -/
theorem setFrame_negative_counterexample :
    (SetFrame entity10 1 (-5)).frame = -5 ∧
      ¬(0 ≤ (SetFrame entity10 1 (-5)).frame) := by
  have h : (SetFrame entity10 1 (-5)).frame = -5 := by
    norm_num [SetFrame, entity10, mkEntity, model10, ctrunc,
      (show seq10.NumFrames = 10 from rfl)]
  refine ⟨h, ?_⟩
  rw [h]
  norm_num

/-- C1 amended: provided the current frame, the frame argument and the
computed increment are non-negative (the truncating wrap does not normalize
negative values, see the counterexample): an early-returning `AdvanceFrame`
leaves the entity unchanged; otherwise, with more than one frame, a looping
`AdvanceFrame` lands in `[0, N-1)` and a non-looping one lands in `[0, N-1]`,
clamping to exactly `N-1` once the incremented frame reaches or exceeds it;
with at most one frame the frame becomes exactly 0. `SetFrame` always wraps
(also for non-looping sequences) into `[0, N-1)`, and forces 0 when `N ≤ 1`. -/
theorem frame_wrap_invariant_amended (e : StudioModelEntity)
    (m : EditableStudioModel) (now deltaTime maximum f : ℚ)
    (hm : e.editableModel = some m)
    (hlo : 0 ≤ e.sequence) (hhi : e.sequence < (m.Sequences.length : ℤ))
    (hframe : 0 ≤ e.frame) (hdt : 0 ≤ deltaTime)
    (hmax : maximum = -1 ∨ 0 ≤ maximum)
    (hfps : 0 ≤ (m.Sequences.getD e.sequence.toNat default).FPS)
    (hfr : 0 ≤ e.frameRate) (hf : 0 ≤ f) :
    ((deltaTime = 0 ∧ now - e.animTime ≤ 1 / 1000) →
      (AdvanceFrame e now deltaTime maximum).2 = e) ∧
    (¬(deltaTime = 0 ∧ now - e.animTime ≤ 1 / 1000) →
      (((m.Sequences.getD e.sequence.toNat default).NumFrames ≤ 1 →
          (AdvanceFrame e now deltaTime maximum).2.frame = 0) ∧
        (1 < (m.Sequences.getD e.sequence.toNat default).NumFrames →
          shouldLoop e.loopingMode (m.Sequences.getD e.sequence.toNat default) =
            true →
          0 ≤ (AdvanceFrame e now deltaTime maximum).2.frame ∧
            (AdvanceFrame e now deltaTime maximum).2.frame <
              ((m.Sequences.getD e.sequence.toNat default).NumFrames : ℚ) - 1) ∧
        (1 < (m.Sequences.getD e.sequence.toNat default).NumFrames →
          shouldLoop e.loopingMode (m.Sequences.getD e.sequence.toNat default) =
            false →
          0 ≤ (AdvanceFrame e now deltaTime maximum).2.frame ∧
            (AdvanceFrame e now deltaTime maximum).2.frame ≤
              ((m.Sequences.getD e.sequence.toNat default).NumFrames : ℚ) - 1 ∧
            (((m.Sequences.getD e.sequence.toNat default).NumFrames : ℚ) - 1 ≤
                e.frame + effectiveDelta e now deltaTime maximum *
                  (m.Sequences.getD e.sequence.toNat default).FPS * e.frameRate →
              (AdvanceFrame e now deltaTime maximum).2.frame =
                ((m.Sequences.getD e.sequence.toNat default).NumFrames : ℚ) - 1)))) ∧
    ((m.Sequences.getD e.sequence.toNat default).NumFrames ≤ 1 →
      (SetFrame e now f).frame = 0) ∧
    (1 < (m.Sequences.getD e.sequence.toNat default).NumFrames →
      0 ≤ (SetFrame e now f).frame ∧
        (SetFrame e now f).frame <
          ((m.Sequences.getD e.sequence.toNat default).NumFrames : ℚ) - 1) := by
  have hguard : ¬(e.sequence < 0 ∨ (m.Sequences.length : ℤ) ≤ e.sequence) := by
    omega
  have hfneg : ¬(f = -1) := by
    intro h
    rw [h] at hf
    norm_num at hf
  have hSetEq : (SetFrame e now f).frame =
      if (m.Sequences.getD e.sequence.toNat default).NumFrames ≤ 1 then (0 : ℚ)
      else
        f - (ctrunc (f / (((m.Sequences.getD e.sequence.toNat default).NumFrames : ℚ) - 1)) : ℚ) *
          (((m.Sequences.getD e.sequence.toNat default).NumFrames : ℚ) - 1) := by
    simp only [SetFrame, hm]
    rw [if_neg hfneg, if_neg hguard]
  refine ⟨?_, ?_, ?_, ?_⟩
  · intro hearly
    simp only [AdvanceFrame, hm]
    rw [if_neg hguard, if_pos hearly]
  · intro hmain
    have hdtv := effectiveDelta_nonneg e now deltaTime maximum hdt hmax hmain
    set seqd := m.Sequences.getD e.sequence.toNat default with hseqdEq
    set dte := effectiveDelta e now deltaTime maximum with hdteEq
    have hinc : 0 ≤ dte * seqd.FPS * e.frameRate :=
      mul_nonneg (mul_nonneg hdtv hfps) hfr
    have hEq : (AdvanceFrame e now deltaTime maximum).2.frame =
        if seqd.NumFrames ≤ 1 then (0 : ℚ)
        else if shouldLoop e.loopingMode seqd = true then
          (if e.frame < (seqd.NumFrames : ℚ) - 1 ∨ shouldLoop e.loopingMode seqd = true then
              e.frame + dte * seqd.FPS * e.frameRate
            else e.frame) -
            (ctrunc ((if e.frame < (seqd.NumFrames : ℚ) - 1 ∨
                  shouldLoop e.loopingMode seqd = true then
                e.frame + dte * seqd.FPS * e.frameRate
              else e.frame) / ((seqd.NumFrames : ℚ) - 1)) : ℚ) *
            ((seqd.NumFrames : ℚ) - 1)
        else if (seqd.NumFrames : ℚ) - 1 ≤
            (if e.frame < (seqd.NumFrames : ℚ) - 1 ∨ shouldLoop e.loopingMode seqd = true then
              e.frame + dte * seqd.FPS * e.frameRate
            else e.frame) then
          (seqd.NumFrames : ℚ) - 1
        else
          (if e.frame < (seqd.NumFrames : ℚ) - 1 ∨ shouldLoop e.loopingMode seqd = true then
            e.frame + dte * seqd.FPS * e.frameRate
          else e.frame) := by
      simp only [AdvanceFrame, hm]
      rw [if_neg hguard, if_neg hmain]
    refine ⟨?_, ?_, ?_⟩
    · intro hN1
      rw [hEq, if_pos hN1]
    · intro hN hsl
      have hNq : (1 : ℚ) < (seqd.NumFrames : ℚ) := by exact_mod_cast hN
      rw [hEq, if_neg (by omega), if_pos hsl]
      refine sub_ctrunc_div_mul_bounds _ _ ?_ (by linarith)
      split_ifs <;> linarith
    · intro hN hsl
      have hNq : (1 : ℚ) < (seqd.NumFrames : ℚ) := by exact_mod_cast hN
      have hslne : ¬(shouldLoop e.loopingMode seqd = true) := by
        rw [hsl]
        simp
      rw [hEq, if_neg (by omega), if_neg hslne]
      simp only [hsl, Bool.false_eq_true, or_false]
      by_cases hlt : e.frame < (seqd.NumFrames : ℚ) - 1
      · rw [if_pos hlt]
        by_cases hge : (seqd.NumFrames : ℚ) - 1 ≤ e.frame + dte * seqd.FPS * e.frameRate
        · rw [if_pos hge]
          exact ⟨by linarith, le_refl _, fun _ => rfl⟩
        · rw [if_neg hge]
          push_neg at hge
          exact ⟨by linarith, by linarith, fun htrig => absurd htrig (not_le.mpr hge)⟩
      · rw [if_neg hlt]
        push_neg at hlt
        rw [if_pos hlt]
        exact ⟨by linarith, le_refl _, fun _ => rfl⟩
  · intro hN1
    rw [hSetEq, if_pos hN1]
  · intro hN
    have hNq : (1 : ℚ) <
        ((m.Sequences.getD e.sequence.toNat default).NumFrames : ℚ) := by
      exact_mod_cast hN
    rw [hSetEq, if_neg (by omega)]
    exact sub_ctrunc_div_mul_bounds _ _ hf (by linarith)

/-- C1 witness: the amended invariant applied to the looping 10-frame
sequence fixture with `SetFrame(3)`. -/
theorem frame_wrap_invariant_amended_witness :
    0 ≤ (SetFrame entity10 2 3).frame ∧
      (SetFrame entity10 2 3).frame <
        ((model10.Sequences.getD entity10.sequence.toNat default).NumFrames : ℚ) - 1 :=
  (frame_wrap_invariant_amended entity10 model10 2 1 (-1) 3 rfl
    (by norm_num [entity10, mkEntity])
    (by norm_num [entity10, mkEntity, model10])
    (by norm_num [entity10, mkEntity])
    (by norm_num)
    (Or.inl rfl)
    (show (0 : ℚ) ≤ 30 by norm_num)
    (by norm_num [entity10, mkEntity])
    (by norm_num)).2.2.2
    (show (1 : ℤ) < 10 by norm_num)

/-- C2: with a looping 30-frame sequence at FPS 30 and playback rate 1,
starting from frame 0 with a prior animation time recorded,
`AdvanceFrame(1.0, -1)` lands the frame at exactly
`30 - (int)(30 / 29) * 29 = 1`. -/
theorem advanceFrame_thirty_frame_scenario :
    (AdvanceFrame entity30 6 1 (-1)).2.frame = 1 ∧
      (AdvanceFrame entity30 6 1 (-1)).1 = 1 := by
  constructor <;>
    norm_num [AdvanceFrame, effectiveDelta, shouldLoop, entity30, mkEntity,
      model30, ctrunc, (by decide : sequenceIsLooping seq30 = true),
      (show seq30.NumFrames = 30 from rfl), (show seq30.FPS = 30 from rfl)]

/-- C4 counterexample: on the wrapping rotational channel `[0, 720]` with
input 400, `StandardBlender::CalculateBlend` encodes 141 while
`SetController` encodes 14 — the blend path skips the wrap normalization, so
the three codec paths are not identical. -/
theorem blend_controller_codec_mismatch :
    blendSetting bdWrap 400 = 141 ∧ controllerSetting bcWrap 400 = 14 ∧
      blendSetting bdWrap 400 ≠ controllerSetting bcWrap 400 := by
  refine ⟨?_, ?_, ?_⟩ <;>
    norm_num [blendSetting, blendAdjustValue, controllerSetting,
      controllerAdjustValue, bcWrap, bdWrap, ctrunc, cclamp,
      (by decide : isRotationalType STUDIO_XR = true)]

/-- C4 amended: the `SetController` and `SetMouth` codec paths perform
identical negation, re-centering and wrap-normalization steps (differing only
in the 64-step scale and `[0, 64]` clamp of the mouth), and the
`StandardBlender::CalculateBlend` path agrees with `SetController` on every
channel that is non-rotational or whose range does not wrap; on wrapping
rotational ranges the blend path omits the wrap normalization (see the
counterexample). -/
theorem codec_paths_agreement_amended (bc : BoneController) (bd : BlendDatum)
    (v : ℚ) :
    mouthAdjustValue bc v = controllerAdjustValue bc v ∧
    (bd.TypeFlags = bc.TypeFlags → bd.Start = bc.Start → bd.End = bc.End →
      (isRotationalType bc.TypeFlags = false ∨ bc.End ≤ bc.Start + 359) →
      blendSetting bd v = controllerSetting bc v) ∧
    mouthSetting bc v =
      cclamp (ctrunc (64 * (controllerAdjustValue bc v - bc.Start) /
        (bc.End - bc.Start))) 0 64 := by
  refine ⟨rfl, ?_, rfl⟩
  intro h1 h2 h3 h4
  have hadj : blendAdjustValue bd v = controllerAdjustValue bc v := by
    unfold blendAdjustValue controllerAdjustValue
    rw [h1, h2, h3]
    rcases h4 with h | h
    · rw [if_neg (by simp [h]), if_neg (by simp [h])]
    · by_cases hr : isRotationalType bc.TypeFlags = true
      · rw [if_pos hr, if_pos hr, if_pos h, if_pos h]
      · rw [if_neg hr, if_neg hr]
  unfold blendSetting controllerSetting
  rw [hadj, h2, h3]

/-- C4 witness: on the non-wrapping rotational channel `[0, 90]` with input
45, the blend and controller paths agree. -/
theorem codec_paths_agreement_amended_witness :
    blendSetting bdRecenter 45 = controllerSetting bcRecenter 45 :=
  (codec_paths_agreement_amended bcRecenter bdRecenter 45).2.1 rfl rfl rfl
    (Or.inr (by norm_num [bcRecenter]))

/-- C5 counterexample: on the wrapping rotational channel `[0, 720]`, input
`-360` is normalized to exactly 360, which is outside the half-open interval
`[0, 360)` claimed by the spec. -/
theorem wrap_normalization_boundary_counterexample :
    isRotationalType bcWrap.TypeFlags = true ∧
    bcWrap.Start + 359 < bcWrap.End ∧
    controllerAdjustValue bcWrap (-360) = 360 ∧
    ¬controllerAdjustValue bcWrap (-360) < 360 := by
  refine ⟨by decide, by norm_num [bcWrap], ?_, ?_⟩ <;>
    norm_num [controllerAdjustValue, bcWrap, ctrunc,
      (by decide : isRotationalType STUDIO_XR = true)]

/-- C5 amended: for every rotational channel whose range wraps
(`Start + 359 < End`), the codec normalizes the value into the closed
interval `[0, 360]` (the boundary 360 is attainable, e.g. from inputs 360 or
-360) before applying the linear mapping. -/
theorem wrap_normalization_closed_interval (bc : BoneController) (v : ℚ)
    (hrot : isRotationalType bc.TypeFlags = true)
    (hwrap : bc.Start + 359 < bc.End) :
    0 ≤ controllerAdjustValue bc v ∧ controllerAdjustValue bc v ≤ 360 := by
  unfold controllerAdjustValue
  rw [if_pos hrot, if_neg (not_le.mpr hwrap)]
  set v1 := if bc.End < bc.Start then -v else v with hv1
  split_ifs with h1 h2
  · have hb := sub_ctrunc_div_mul_bounds v1 360 (by linarith) (by norm_num)
    exact ⟨hb.1, by linarith [hb.2]⟩
  · have hb := neg_wrap_bounds v1 h2
    exact ⟨hb.1.le, hb.2⟩
  · push_neg at h1 h2
    exact ⟨h2, h1⟩

/-- C5 witness: the amended bound evaluated on the wrapping channel
`[0, 720]` at input 1000. -/
theorem wrap_normalization_closed_interval_witness :
    0 ≤ controllerAdjustValue bcWrap 1000 ∧
      controllerAdjustValue bcWrap 1000 ≤ 360 :=
  wrap_normalization_closed_interval bcWrap 1000 (by decide)
    (by norm_num [bcWrap])

/-- C6: on a blend channel whose descriptor has `Type == 0`, the standard
blend calculation returns the explicit absent result `none`, and `SetBlending`
leaves the entity (in particular the stored encoded blend byte and the stored
real blend value) unchanged. -/
theorem blend_type_zero_no_value (e : StudioModelEntity)
    (m : EditableStudioModel) (b : ℤ) (v : ℚ)
    (hm : e.editableModel = some m)
    (hbk : e.blender = .standard)
    (htype : ((m.Sequences.getD e.sequence.toNat default).BlendData.getD
      b.toNat default).TypeFlags = 0) :
    calculateBlend .standard (m.Sequences.getD e.sequence.toNat default)
      b.toNat v = none ∧
    SetBlending e b v = e := by
  have hcb : calculateBlend .standard
      (m.Sequences.getD e.sequence.toNat default) b.toNat v = none := by
    simp only [calculateBlend, calculateBlendStandard]
    rw [if_pos htype]
  refine ⟨hcb, ?_⟩
  obtain ⟨em, sq, fr, at1, fra, lm, lec, ct, cv, mo, mv, bl, bv, bk⟩ := e
  replace hm : em = some m := hm
  replace hbk : bk = BlenderKind.standard := hbk
  subst hm
  subst hbk
  simp only [SetBlending]
  split_ifs with h1 h2
  · rfl
  · rfl
  · rw [hcb]

/-- C6 witness: the absent result and the no-op on a concrete entity whose
current sequence has two `Type == 0` blend channels. -/
theorem blend_type_zero_no_value_witness :
    calculateBlend .standard
      (modelBlend.Sequences.getD entityBlend.sequence.toNat default) 0 5 =
      none ∧
    SetBlending entityBlend 0 5 = entityBlend :=
  blend_type_zero_no_value entityBlend modelBlend 0 5 rfl rfl rfl

/-- C9: with a null model pointer, `DrawModel` returns 0 drawn polygons and
leaves the counters untouched, and most entity operations are safe no-ops —
but `SetSequence` dereferences the null `_editableModel` pointer
unconditionally, and `GetNumFrames` dereferences it whenever `_sequence ≥ 0`
(its short-circuited guard returns 0 gracefully only for `_sequence < 0`);
both dereferences are modelled as the `none` crash result, contradicting the
graceful no-crash behaviour the spec describes and the other methods
implement. -/
theorem null_model_operation_behavior (sequence : ℤ)
    (frame animTime frameRate lastEventCheck : ℚ) (mode : StudioLoopingMode)
    (ctrl : ℤ → ℤ) (cvals : ℤ → ℚ) (mouthEnc : ℤ) (mouthValue : ℚ)
    (blend : ℤ → ℤ) (bvals : ℤ → ℚ) (bk : BlenderKind)
    (now deltaTime maximum value : ℚ) (c : ℤ)
    (counters : RenderCounters) (pipeline : EditableStudioModel → ℕ) :
    (AdvanceFrame ⟨none, sequence, frame, animTime, frameRate, mode,
        lastEventCheck, ctrl, cvals, mouthEnc, mouthValue, blend, bvals, bk⟩
      now deltaTime maximum).2 =
      ⟨none, sequence, frame, animTime, frameRate, mode, lastEventCheck, ctrl,
        cvals, mouthEnc, mouthValue, blend, bvals, bk⟩ ∧
    SetFrame ⟨none, sequence, frame, animTime, frameRate, mode, lastEventCheck,
        ctrl, cvals, mouthEnc, mouthValue, blend, bvals, bk⟩ now value =
      ⟨none, sequence, frame, animTime, frameRate, mode, lastEventCheck, ctrl,
        cvals, mouthEnc, mouthValue, blend, bvals, bk⟩ ∧
    SetController ⟨none, sequence, frame, animTime, frameRate, mode,
        lastEventCheck, ctrl, cvals, mouthEnc, mouthValue, blend, bvals, bk⟩
      c value =
      ⟨none, sequence, frame, animTime, frameRate, mode, lastEventCheck, ctrl,
        cvals, mouthEnc, mouthValue, blend, bvals, bk⟩ ∧
    SetMouth ⟨none, sequence, frame, animTime, frameRate, mode, lastEventCheck,
        ctrl, cvals, mouthEnc, mouthValue, blend, bvals, bk⟩ value =
      ⟨none, sequence, frame, animTime, frameRate, mode, lastEventCheck, ctrl,
        cvals, mouthEnc, mouthValue, blend, bvals, bk⟩ ∧
    SetBlending ⟨none, sequence, frame, animTime, frameRate, mode,
        lastEventCheck, ctrl, cvals, mouthEnc, mouthValue, blend, bvals, bk⟩
      c value =
      ⟨none, sequence, frame, animTime, frameRate, mode, lastEventCheck, ctrl,
        cvals, mouthEnc, mouthValue, blend, bvals, bk⟩ ∧
    DispatchAnimEvents ⟨none, sequence, frame, animTime, frameRate, mode,
        lastEventCheck, ctrl, cvals, mouthEnc, mouthValue, blend, bvals, bk⟩
      true =
      ([], ⟨none, sequence, frame, animTime, frameRate, mode, lastEventCheck,
        ctrl, cvals, mouthEnc, mouthValue, blend, bvals, bk⟩) ∧
    DrawModel counters none pipeline = (0, counters) ∧
    SetSequence ⟨none, sequence, frame, animTime, frameRate, mode,
        lastEventCheck, ctrl, cvals, mouthEnc, mouthValue, blend, bvals, bk⟩
      c = none ∧
    GetNumFrames ⟨none, -1, frame, animTime, frameRate, mode, lastEventCheck,
        ctrl, cvals, mouthEnc, mouthValue, blend, bvals, bk⟩ = some 0 ∧
    GetNumFrames ⟨none, 0, frame, animTime, frameRate, mode, lastEventCheck,
        ctrl, cvals, mouthEnc, mouthValue, blend, bvals, bk⟩ = none := by
  refine ⟨rfl, ?_, rfl, rfl, rfl, rfl, rfl, rfl, ?_, ?_⟩
  · unfold SetFrame
    split
    · rfl
    · rfl
  · simp [GetNumFrames]
  · simp [GetNumFrames]

/-- C10: when no bone controller of the model matches the requested
controller index (or, for `SetMouth`, the mouth index), the call leaves the
entity — in particular the encoded controller byte array and the stored real
controller values — unchanged. -/
theorem setController_no_matching_controller (e : StudioModelEntity)
    (m : EditableStudioModel) (c : ℤ) (v : ℚ)
    (hm : e.editableModel = some m) :
    ((∀ bc ∈ m.BoneControllers, bc.Index ≠ c) → SetController e c v = e) ∧
    ((∀ bc ∈ m.BoneControllers, bc.Index ≠ STUDIO_MOUTH_CONTROLLER) →
      SetMouth e v = e) := by
  obtain ⟨em, sq, fr, at1, fra, lm, lec, ct, cv, mo, mv, bl, bv, bk⟩ := e
  replace hm : em = some m := hm
  subst hm
  constructor
  · intro h
    have hfind : m.BoneControllers.find? (fun bc => bc.Index == c) = none :=
      List.find?_eq_none.mpr fun bc hbc => by simpa using h bc hbc
    simp only [SetController]
    rw [hfind]
  · intro h
    have hfind : m.BoneControllers.find?
        (fun bc => bc.Index == STUDIO_MOUTH_CONTROLLER) = none :=
      List.find?_eq_none.mpr fun bc hbc => by simpa using h bc hbc
    simp only [SetMouth]
    rw [hfind]

/-- C10 witness: on a model with no bone controllers, `SetController` and
`SetMouth` are no-ops. -/
theorem setController_no_matching_controller_witness :
    SetController entity10 0 5 = entity10 ∧ SetMouth entity10 5 = entity10 :=
  ⟨(setController_no_matching_controller entity10 model10 0 5 rfl).1
      (by simp [model10]),
    (setController_no_matching_controller entity10 model10 0 5 rfl).2
      (by simp [model10])⟩

/-- A failed event scan means no remaining event satisfies the window test. -/
theorem findEventFrom_none (a : Bool) (seqd : Sequence) (s t : ℚ) :
    ∀ (l : List AnimEventData) (index : ℕ),
      findEventFrom a seqd s t l index = none →
      l.filter (animEventMatches a seqd s t) = [] := by
  intro l
  induction l with
  | nil => intro index _; rfl
  | cons ev rest ih =>
    intro index h
    by_cases hev : animEventMatches a seqd s t ev = true
    · rw [findEventFrom, if_pos hev] at h
      cases h
    · rw [findEventFrom, if_neg hev] at h
      rw [List.filter_cons_of_neg hev]
      exact ih (index + 1) h

/-- A successful event scan returns the first matching event after the scan
start and the index just past it. -/
theorem findEventFrom_some (a : Bool) (seqd : Sequence) (s t : ℚ) :
    ∀ (l : List AnimEventData) (index next : ℕ) (ev : AnimEventData),
      findEventFrom a seqd s t l index = some (next, ev) →
      ∃ l1 l2, l = l1 ++ ev :: l2 ∧
        l1.filter (animEventMatches a seqd s t) = [] ∧
        animEventMatches a seqd s t ev = true ∧
        next = index + l1.length + 1 := by
  intro l
  induction l with
  | nil => intro index next ev h; cases h
  | cons c rest ih =>
    intro index next ev h
    by_cases hc : animEventMatches a seqd s t c = true
    · rw [findEventFrom, if_pos hc] at h
      have hpair := Option.some.inj h
      obtain ⟨rfl, rfl⟩ : index + 1 = next ∧ c = ev :=
        ⟨congrArg Prod.fst hpair, congrArg Prod.snd hpair⟩
      exact ⟨[], rest, rfl, rfl, hc, by simp⟩
    · rw [findEventFrom, if_neg hc] at h
      obtain ⟨l1, l2, hl, hfilter, hp, hnext⟩ := ih (index + 1) next ev h
      refine ⟨c :: l1, l2, by rw [hl]; rfl, ?_, hp, ?_⟩
      · rw [List.filter_cons_of_neg hc]
        exact hfilter
      · simp only [List.length_cons]
        omega

/-- On an entity with a model and a valid sequence index,
`GetAnimationEvent` is the scan loop over the events from `index`, with the
window override for sequences of at most one frame. -/
theorem getAnimationEvent_valid (e : StudioModelEntity)
    (m : EditableStudioModel) (hm : e.editableModel = some m)
    (hguard : ¬(e.sequence < 0 ∨ (m.Sequences.length : ℤ) ≤ e.sequence))
    (s t : ℚ) (index : ℕ) (a : Bool) :
    GetAnimationEvent e s t index a =
      findEventFrom a (m.Sequences.getD e.sequence.toNat default)
        (if (m.Sequences.getD e.sequence.toNat default).NumFrames ≤ 1 then 0 else s)
        (if (m.Sequences.getD e.sequence.toNat default).NumFrames ≤ 1 then 1 else t)
        ((m.Sequences.getD e.sequence.toNat default).SortedEvents.drop index)
        index := by
  simp only [GetAnimationEvent, hm]
  rw [if_neg hguard]
  by_cases hidx :
      (m.Sequences.getD e.sequence.toNat default).SortedEvents.length ≤ index
  · rw [if_pos hidx, List.drop_eq_nil_of_le hidx]
    rfl
  · rw [if_neg hidx]

/-- The dispatch loop with sufficient fuel collects exactly the events of the
remaining list that satisfy the window test. -/
theorem dispatchEventsLoop_eq_filter (e : StudioModelEntity)
    (m : EditableStudioModel) (hm : e.editableModel = some m)
    (hguard : ¬(e.sequence < 0 ∨ (m.Sequences.length : ℤ) ≤ e.sequence))
    (s t : ℚ) (a : Bool) :
    ∀ (fuel : ℕ) (l : List AnimEventData) (index : ℕ),
      (m.Sequences.getD e.sequence.toNat default).SortedEvents.drop index = l →
      l.length < fuel →
      dispatchEventsLoop e s t a fuel index =
        l.filter (animEventMatches a (m.Sequences.getD e.sequence.toNat default)
          (if (m.Sequences.getD e.sequence.toNat default).NumFrames ≤ 1 then 0 else s)
          (if (m.Sequences.getD e.sequence.toNat default).NumFrames ≤ 1 then 1 else t)) := by
  intro fuel
  induction fuel with
  | zero => intro l index _ hlen; omega
  | succ fuel ih =>
    intro l index hdrop hlen
    rw [dispatchEventsLoop, getAnimationEvent_valid e m hm hguard s t index a,
      hdrop]
    cases hfind : findEventFrom a (m.Sequences.getD e.sequence.toNat default)
        (if (m.Sequences.getD e.sequence.toNat default).NumFrames ≤ 1 then 0 else s)
        (if (m.Sequences.getD e.sequence.toNat default).NumFrames ≤ 1 then 1 else t)
        l index with
    | none =>
      simp only [hfind]
      exact (findEventFrom_none _ _ _ _ l index hfind).symm
    | some pair =>
      obtain ⟨next, ev⟩ := pair
      obtain ⟨l1, l2, hl, hfilter, hp, hnext⟩ :=
        findEventFrom_some _ _ _ _ l index next ev hfind
      have hdrop2 :
          (m.Sequences.getD e.sequence.toNat default).SortedEvents.drop next = l2 := by
        have hsum : index + (l1.length + 1) = next := by omega
        rw [← hsum, ← List.drop_drop, hdrop, hl,
          (by simp : l1 ++ ev :: l2 = (l1 ++ [ev]) ++ l2),
          List.drop_left' (by simp)]
      have hlen2 : l2.length < fuel := by
        subst hl
        simp only [List.length_append, List.length_cons] at hlen
        omega
      simp only [hfind]
      rw [ih l2 next hdrop2 hlen2, hl, List.filter_append, hfilter,
        List.filter_cons_of_pos hp]
      rfl

/-- On an entity with a model and a valid sequence index,
`DispatchAnimEvents` hands to `HandleAnimEvent` exactly the events of the
current sequence satisfying the window test for the window from the event
marker to the current frame. -/
theorem dispatchAnimEvents_fst_eq (e : StudioModelEntity)
    (m : EditableStudioModel) (hm : e.editableModel = some m)
    (hguard : ¬(e.sequence < 0 ∨ (m.Sequences.length : ℤ) ≤ e.sequence))
    (a : Bool) :
    (DispatchAnimEvents e a).1 =
      (m.Sequences.getD e.sequence.toNat default).SortedEvents.filter
        (animEventMatches a (m.Sequences.getD e.sequence.toNat default)
          (if (m.Sequences.getD e.sequence.toNat default).NumFrames ≤ 1 then 0
            else e.lastEventCheck)
          (if (m.Sequences.getD e.sequence.toNat default).NumFrames ≤ 1 then 1
            else e.frame)) := by
  simp only [DispatchAnimEvents, hm]
  exact dispatchEventsLoop_eq_filter e m hm hguard e.lastEventCheck e.frame a
    ((m.Sequences.getD e.sequence.toNat default).SortedEvents.length + 1)
    (m.Sequences.getD e.sequence.toNat default).SortedEvents 0
    (List.drop_zero _) (by omega)

/-- Filters over two element-wise disjoint predicates concatenate, up to
permutation, to the filter over their disjunction. -/
theorem filter_or_perm (l : List AnimEventData) (p q : AnimEventData → Bool)
    (hdisj : ∀ x ∈ l, ¬(p x = true ∧ q x = true)) :
    (l.filter p ++ l.filter q).Perm (l.filter fun x => p x || q x) := by
  induction l with
  | nil => simp
  | cons x l ih =>
    have ihl := ih fun y hy => hdisj y (List.mem_cons_of_mem x hy)
    by_cases hp : p x = true
    · have hq : ¬q x = true := fun hq => hdisj x (List.mem_cons_self x l) ⟨hp, hq⟩
      rw [List.filter_cons_of_pos hp, List.filter_cons_of_neg hq,
        List.filter_cons_of_pos (by simp [hp])]
      exact ihl.cons x
    · by_cases hq : q x = true
      · rw [List.filter_cons_of_neg hp, List.filter_cons_of_pos hq,
          List.filter_cons_of_pos (by simp [hq])]
        exact List.perm_middle.trans (ihl.cons x)
      · rw [List.filter_cons_of_neg hp, List.filter_cons_of_neg hq,
          List.filter_cons_of_neg (by simp [hp, hq])]
        exact ihl

/-- Head-to-last monotonicity of a weakly increasing cut list. -/
theorem chainLe_head_le_getLast :
    ∀ (l : List ℚ) (a b : ℚ), l.Chain' (· ≤ ·) → l.head? = some a →
      l.getLast? = some b → a ≤ b := by
  intro l
  induction l with
  | nil => intro a b _ hh _; cases hh
  | cons c rest ih =>
    intro a b hchain hhead hlast
    have hac : c = a := by simpa using hhead
    subst hac
    cases rest with
    | nil =>
      have hcb : c = b := by simpa using hlast
      exact hcb.le
    | cons d rest2 =>
      have hcd : c ≤ d := (List.chain'_cons.mp hchain).1
      have hdb : d ≤ b :=
        ih d b (List.chain'_cons.mp hchain).2 rfl
          (by rw [List.getLast?_cons_cons] at hlast; exact hlast)
      linarith

/-- Every member of a weakly increasing cut list is at most its last
element. -/
theorem chainLe_mem_le_getLast :
    ∀ (l : List ℚ) (b : ℚ), l.Chain' (· ≤ ·) → l.getLast? = some b →
      ∀ x ∈ l, x ≤ b := by
  intro l
  induction l with
  | nil => intro b _ _ x hx; cases hx
  | cons c rest ih =>
    intro b hchain hlast x hx
    cases rest with
    | nil =>
      have hb : c = b := by simpa using hlast
      have hx2 : x = c := by simpa using hx
      rw [hx2, ← hb]
    | cons d rest2 =>
      have hcd : c ≤ d := (List.chain'_cons.mp hchain).1
      have hchain2 := (List.chain'_cons.mp hchain).2
      have hlast2 : (d :: rest2).getLast? = some b := by
        rw [List.getLast?_cons_cons] at hlast
        exact hlast
      rcases List.mem_cons.mp hx with h | h
      · have hdb : d ≤ b :=
          chainLe_head_le_getLast (d :: rest2) d b hchain2 rfl hlast2
        rw [h]
        linarith
      · exact ih b hchain2 hlast2 x h

/-- Concatenating the interval filters over consecutive windows of a weakly
increasing cut list permutes to the interval filter over the whole span. -/
theorem windows_cover_perm (events : List AnimEventData) :
    ∀ (cuts : List ℚ) (a b : ℚ), cuts.Chain' (· ≤ ·) → cuts.head? = some a →
      cuts.getLast? = some b →
      (((cuts.zip cuts.tail).map fun w => events.filter (inWindow w.1 w.2)).flatten).Perm
        (events.filter (inWindow a b)) := by
  intro cuts
  induction cuts with
  | nil => intro a b _ hh _; cases hh
  | cons c rest ih =>
    intro a b hchain hhead hlast
    have hac : c = a := by simpa using hhead
    subst hac
    cases rest with
    | nil =>
      have hb : c = b := by simpa using hlast
      subst hb
      have hempty : events.filter (inWindow c c) = [] := by
        rw [List.filter_eq_nil_iff]
        intro x _
        simp only [inWindow, decide_eq_true_eq]
        rintro ⟨h1, h2⟩
        linarith
      simp [hempty]
    | cons d rest2 =>
      have hcd : c ≤ d := (List.chain'_cons.mp hchain).1
      have hchain2 := (List.chain'_cons.mp hchain).2
      have hlast2 : (d :: rest2).getLast? = some b := by
        rw [List.getLast?_cons_cons] at hlast
        exact hlast
      have hdb : d ≤ b :=
        chainLe_head_le_getLast (d :: rest2) d b hchain2 rfl hlast2
      have ihd := ih d b hchain2 rfl hlast2
      rw [List.tail_cons, List.zip_cons_cons, List.map_cons, List.flatten_cons]
      have h1 := ihd.append_left (events.filter (inWindow c d))
      have h2 := filter_or_perm events (inWindow c d) (inWindow d b)
        (by
          intro x _
          simp only [inWindow, decide_eq_true_eq]
          rintro ⟨⟨_, hxd⟩, ⟨hdx, _⟩⟩
          linarith)
      have h3 : (events.filter fun x => inWindow c d x || inWindow d b x) =
          events.filter (inWindow c b) := by
        refine List.filter_congr fun x _ => ?_
        simp only [inWindow]
        rw [← Bool.decide_or]
        refine decide_eq_decide.mpr ?_
        constructor
        · rintro (⟨h1, h2⟩ | ⟨h1, h2⟩)
          · exact ⟨h1, by linarith⟩
          · exact ⟨by linarith, h2⟩
        · rintro ⟨h1, h2⟩
          by_cases hxd : x.Frame < d
          · exact Or.inl ⟨h1, hxd⟩
          · exact Or.inr ⟨not_lt.mp hxd, h2⟩
      exact h1.trans (h3 ▸ h2)

/-- One window dispatch on a valid multi-frame sequence, with the window's
end at most the loop length, returns exactly the events inside the window. -/
theorem dispatchWindow_eq_interval (e : StudioModelEntity)
    (m : EditableStudioModel) (hm : e.editableModel = some m)
    (hguard : ¬(e.sequence < 0 ∨ (m.Sequences.length : ℤ) ≤ e.sequence))
    (hN : 1 < (m.Sequences.getD e.sequence.toNat default).NumFrames)
    (w : ℚ × ℚ)
    (hw2 : w.2 ≤ ((m.Sequences.getD e.sequence.toNat default).NumFrames : ℚ) - 1)
    (hev : ∀ ev ∈ (m.Sequences.getD e.sequence.toNat default).SortedEvents,
      0 ≤ ev.Frame) :
    dispatchWindow e true w =
      (m.Sequences.getD e.sequence.toNat default).SortedEvents.filter
        (inWindow w.1 w.2) := by
  unfold dispatchWindow
  rw [dispatchAnimEvents_fst_eq
    { e with lastEventCheck := w.1, frame := w.2 } m hm hguard true]
  rw [if_neg (by omega : ¬(m.Sequences.getD e.sequence.toNat default).NumFrames ≤ 1),
    if_neg (by omega : ¬(m.Sequences.getD e.sequence.toNat default).NumFrames ≤ 1)]
  refine List.filter_congr fun ev hevm => ?_
  simp only [animEventMatches, inWindow, Bool.true_or, Bool.true_and]
  have hwrapfalse : (sequenceIsLooping (m.Sequences.getD e.sequence.toNat default) &&
      decide (((m.Sequences.getD e.sequence.toNat default).NumFrames : ℚ) - 1 ≤ w.2) &&
      decide (ev.Frame <
        w.2 - ((m.Sequences.getD e.sequence.toNat default).NumFrames : ℚ) + 1)) = false := by
    by_cases hc :
        ((m.Sequences.getD e.sequence.toNat default).NumFrames : ℚ) - 1 ≤ w.2
    · have h0 : 0 ≤ ev.Frame := hev ev hevm
      have hnm : ¬(ev.Frame <
          w.2 - ((m.Sequences.getD e.sequence.toNat default).NumFrames : ℚ) + 1) := by
        push_neg
        linarith
      rw [decide_eq_false hnm, Bool.and_false]
    · rw [decide_eq_false hc, Bool.and_false, Bool.false_and]
  rw [hwrapfalse, Bool.or_false]

/-- C3 counterexample: on a looping 20-frame sequence with one event at frame
0, the spec's own example windows `[0,10)` and `[10,20)` dispatch the event
twice — the direct window test fires it in the first window and the
loop-wrap clause fires it again in the second. -/
theorem dispatch_double_fire_counterexample :
    dispatchOverWindows entity20 true [0, 10, 20] = [evZero, evZero] ∧
      (dispatchOverWindows entity20 true [0, 10, 20]).count evZero = 2 := by
  have h : dispatchOverWindows entity20 true [0, 10, 20] = [evZero, evZero] := by
    norm_num [dispatchOverWindows, dispatchWindow, DispatchAnimEvents,
      dispatchEventsLoop, GetAnimationEvent, findEventFrom, animEventMatches,
      entity20, mkEntity, model20, EVENT_CLIENT,
      (by decide : sequenceIsLooping seq20 = true),
      (show seq20.NumFrames = 20 from rfl),
      (show seq20.SortedEvents = [evZero] from rfl),
      (show evZero.Frame = 0 from rfl), (show evZero.EventId = 1 from rfl)]
  refine ⟨h, ?_⟩
  rw [h]
  rfl

/-- C3 amended: for a current sequence with more than one frame whose sorted
event frames all lie in `[0, N-1)`, dispatching over any weakly increasing
series of windows cut from 0 to `N-1` (the loop length — not `N`, whose use
as the final cut re-fires events near frame 0 through the wrap clause, see
the counterexample) yields every event in the list exactly once each, up to
order. -/
theorem dispatch_partition_exactly_once (e : StudioModelEntity)
    (m : EditableStudioModel) (cuts : List ℚ)
    (hm : e.editableModel = some m)
    (hlo : 0 ≤ e.sequence) (hhi : e.sequence < (m.Sequences.length : ℤ))
    (hN : 2 ≤ (m.Sequences.getD e.sequence.toNat default).NumFrames)
    (hchain : cuts.Chain' (· ≤ ·))
    (hhead : cuts.head? = some 0)
    (hlast : cuts.getLast? =
      some (((m.Sequences.getD e.sequence.toNat default).NumFrames : ℚ) - 1))
    (hev : ∀ ev ∈ (m.Sequences.getD e.sequence.toNat default).SortedEvents,
      0 ≤ ev.Frame ∧
        ev.Frame < ((m.Sequences.getD e.sequence.toNat default).NumFrames : ℚ) - 1) :
    (dispatchOverWindows e true cuts).Perm
      (m.Sequences.getD e.sequence.toNat default).SortedEvents := by
  have hguard : ¬(e.sequence < 0 ∨ (m.Sequences.length : ℤ) ≤ e.sequence) := by
    omega
  unfold dispatchOverWindows
  have hmap : (cuts.zip cuts.tail).map (dispatchWindow e true) =
      (cuts.zip cuts.tail).map
        (fun w => (m.Sequences.getD e.sequence.toNat default).SortedEvents.filter
          (inWindow w.1 w.2)) := by
    refine List.map_congr_left fun w hw => ?_
    have hw2 : w.2 ≤ ((m.Sequences.getD e.sequence.toNat default).NumFrames : ℚ) - 1 :=
      chainLe_mem_le_getLast cuts _ hchain hlast w.2
        (List.mem_of_mem_tail (List.of_mem_zip hw).2)
    exact dispatchWindow_eq_interval e m hm hguard (by omega) w hw2
      fun ev hevm => (hev ev hevm).1
  rw [hmap]
  have hperm := windows_cover_perm
    (m.Sequences.getD e.sequence.toNat default).SortedEvents cuts 0
    (((m.Sequences.getD e.sequence.toNat default).NumFrames : ℚ) - 1)
    hchain hhead hlast
  have hself : (m.Sequences.getD e.sequence.toNat default).SortedEvents.filter
      (inWindow 0 (((m.Sequences.getD e.sequence.toNat default).NumFrames : ℚ) - 1)) =
      (m.Sequences.getD e.sequence.toNat default).SortedEvents :=
    List.filter_eq_self.mpr fun ev hevm => by
      simp only [inWindow, decide_eq_true_eq]
      exact hev ev hevm
  rw [hself] at hperm
  exact hperm

/-- C3 witness: windows `[0,10)` and `[10,19)` over the looping 20-frame
sequence with one event at frame 0 dispatch the event list exactly once. -/
theorem dispatch_partition_exactly_once_witness :
    (dispatchOverWindows entity20 true [0, 10, 19]).Perm
      (model20.Sequences.getD entity20.sequence.toNat default).SortedEvents :=
  dispatch_partition_exactly_once entity20 model20 [0, 10, 19] rfl
    (show (0 : ℤ) ≤ 0 by norm_num) (show (0 : ℤ) < 1 by norm_num)
    (show (2 : ℤ) ≤ 20 by norm_num)
    (by norm_num [List.chain'_cons])
    rfl
    (by
      rw [(show ((model20.Sequences.getD entity20.sequence.toNat default).NumFrames : ℚ) =
        ((20 : ℤ) : ℚ) from rfl)]
      norm_num)
    (by
      rw [(show (model20.Sequences.getD entity20.sequence.toNat default).SortedEvents =
        [evZero] from rfl)]
      intro ev hevm
      rw [List.mem_singleton] at hevm
      subst hevm
      rw [(show ((model20.Sequences.getD entity20.sequence.toNat default).NumFrames : ℚ) =
        ((20 : ℤ) : ℚ) from rfl), (show evZero.Frame = 0 from rfl)]
      norm_num)

/-- Inner shadow loop: the emitted points are the projections of the vertices
referenced by the consumed command-stream groups, and the remaining stream
agrees with the index decoder. -/
theorem shadowEmitGroup_eq (xf : ℕ → Vec3q) (lv : Vec3q) (h : ℚ) :
    ∀ (n : ℕ) (l : List ℤ),
      shadowEmitGroup xf lv h n l =
        ((cmdGroupIndices n l).1.map (fun idx => shadowProject lv h (xf idx.toNat)),
          (cmdGroupIndices n l).2) := by
  intro n
  induction n with
  | zero => intro l; rfl
  | succ n ih =>
    intro l
    cases l with
    | nil => rfl
    | cons a t =>
      simp only [shadowEmitGroup, cmdGroupIndices, ih, List.map_cons]
      rfl

/-- Outer shadow loop: the emitted points are the projections of the decoded
command-stream vertex indices. -/
theorem shadowEmitAux_eq (xf : ℕ → Vec3q) (lv : Vec3q) (h : ℚ) :
    ∀ (fuel : ℕ) (cmds : List ℤ),
      shadowEmitAux xf lv h fuel cmds =
        (cmdVertexIndicesAux fuel cmds).map
          (fun idx => shadowProject lv h (xf idx.toNat)) := by
  intro fuel
  induction fuel with
  | zero => intro cmds; rfl
  | succ fuel ih =>
    intro cmds
    cases cmds with
    | nil => rfl
    | cons c rest =>
      simp only [shadowEmitAux, cmdVertexIndicesAux]
      by_cases hc : c = 0
      · rw [if_pos hc, if_pos hc]
        rfl
      · rw [if_neg hc, if_neg hc]
        simp only [shadowEmitGroup_eq, ih, List.map_append]

/-- The pair computed by `InternalDrawShadows`: projected vertices of all
meshes and the accumulated triangle count. -/
theorem internalDrawShadows_eq (meshes : List ShadowMesh) (xf : ℕ → Vec3q)
    (lv : Vec3q) (origin : Vec3q) :
    InternalDrawShadows meshes xf lv origin =
      ((meshesCmdVertexIndices meshes).map
        (fun idx => shadowProject lv origin.z (xf idx.toNat)),
        (meshes.map ShadowMesh.NumTriangles).sum) := by
  induction meshes with
  | nil => rfl
  | cons mesh rest ih =>
    simp only [InternalDrawShadows, List.foldr_cons] at ih ⊢
    rw [ih]
    simp only [meshesCmdVertexIndices, List.map_cons, List.flatten_cons,
      List.map_append, List.sum_cons, shadowEmit, shadowEmitAux_eq,
      cmdVertexIndices]

/-- C8: for a model flagged `EF_NOSHADELIGHT`, shadow drawing is skipped
entirely and contributes zero drawn polygons; otherwise every emitted shadow
vertex is the transformed source vertex projected onto the horizontal plane
one unit above the entity origin's Z, with X and Y offset by the light
direction's X/Y components times `(vertex.z - originZ)` (the offset is
realized as a subtraction), and the polygon count is the sum of the meshes'
triangle counts. -/
theorem shadow_projection_formula (meshes : List ShadowMesh)
    (xf : ℕ → Vec3q) (lv : Vec3q) (origin : Vec3q) :
    DrawShadows true meshes xf lv origin = ([], 0) ∧
    (DrawShadows false meshes xf lv origin).1 =
      (meshesCmdVertexIndices meshes).map
        (fun idx => shadowProject lv origin.z (xf idx.toNat)) ∧
    (DrawShadows false meshes xf lv origin).2 =
      (meshes.map ShadowMesh.NumTriangles).sum := by
  refine ⟨rfl, ?_, ?_⟩ <;>
    simp [DrawShadows, internalDrawShadows_eq]

/-- C7: computing chrome a second time for the same bone within the same draw
generation does not recompute or overwrite the cached per-bone basis vectors
(the state is returned unchanged) and yields coordinates identical to the
first computation, even when the viewer position is mutated between the two
calls. -/
theorem chrome_cache_same_generation (s : ChromeState) (bone : ℕ)
    (normal newViewerOrigin : Vec3r) :
    (Chrome { (Chrome s bone normal).2 with viewerOrigin := newViewerOrigin }
        bone normal).1 = (Chrome s bone normal).1 ∧
    (Chrome { (Chrome s bone normal).2 with viewerOrigin := newViewerOrigin }
        bone normal).2 =
      { (Chrome s bone normal).2 with viewerOrigin := newViewerOrigin } := by
  by_cases h : s.chromeage bone = s.modelsDrawnCount
  · have hcond : ¬(s.chromeage bone ≠ s.modelsDrawnCount) := by
      simpa using h
    constructor <;> simp [Chrome, hcond]
  · constructor <;> simp [Chrome, h]

end HLAM
